import Mathlib

/-!
Verification of the docster repository-documentation generator.

This file shallowly embeds the core of the source (the retry wrapper in
`server/services/ai_service.py`, the repository walker, documentation
orchestration and persistence in `server/services/documentation_service.py`,
and the context retriever in `server/services/chat_service.py`) and settles
the specification claims against it.  External collaborators (the GitHub
API and the LLM API) are modelled as environment parameters: a directory
listing becomes an explicit tree, an LLM call becomes a function from the
attempt index to `Except String String` (the outcome of the i-th call of
the wrapped closure).
-/

namespace Docster

/-! ## Retry wrapper (`AIService._retry_api_call`)

The source loops `while retries <= max_retries`, calling `func()`; on an
exception it increments `retries`, re-raises once `retries > max_retries`,
and otherwise sleeps `initial_delay * 2 ** (retries - 1)` seconds before
the next call.  `retryGo` mirrors one pass of that loop: `remaining` is the
number of retries that are still allowed (`max_retries - i`), `i` the index
of the call being made now, `sleepAcc` the seconds slept so far.  The value
returned is the final result together with the total sleep and the total
number of calls made. -/

def retryGo {E A : Type} (attempts : Nat → Except E A) (initial_delay : Nat) :
    Nat → Nat → Nat → Except E A × Nat × Nat
  | remaining, i, sleepAcc =>
    match attempts i with
    | .ok a => (.ok a, sleepAcc, i + 1)
    | .error e =>
      match remaining with
      | 0 => (.error e, sleepAcc, i + 1)
      | r + 1 => retryGo attempts initial_delay r (i + 1) (sleepAcc + initial_delay * 2 ^ i)

/-- `AIService._retry_api_call(func, max_retries=3, initial_delay=1)`:
run the wrapped operation, retrying up to `max_retries` additional times
with exponential backoff, re-raising the final failure. -/
def retry_api_call {E A : Type} (attempts : Nat → Except E A)
    (max_retries initial_delay : Nat) : Except E A × Nat × Nat :=
  retryGo attempts initial_delay max_retries 0 0

/-- Total backoff slept when `k` consecutive failures occur starting at call
index `i`: `Σ_{j<k} initial_delay * 2 ^ (i + j)`. -/
def backoffSum (initial_delay i : Nat) : Nat → Nat
  | 0 => 0
  | k + 1 => initial_delay * 2 ^ i + backoffSum initial_delay (i + 1) k

/-! ## Repository walker (`DocumentationService._get_important_files`)

A repository tree is modelled by `Entry`: the GitHub content objects carry
a `name`, a `path`, and a `type` (`"dir"` or `"file"`); for a directory the
listing obtained by `get_repository_contents(repo_name, content.path)` is
embedded as the `contents` field. -/

inductive Entry : Type where
  | file : (name path : String) → Entry
  | dir : (name path : String) → (contents : List Entry) → Entry

/-- Python `str.lower()` on the ASCII names this system compares:
per-character lowercasing. -/
def lower (s : String) : String := String.mk (s.data.map Char.toLower)

/-- The directory names skipped by `process_contents`
(`if content.name.lower() in ['.git', 'node_modules', 'venv', 'dist', 'build']`). -/
def skip_dirs : List String := [".git", "node_modules", "venv", "dist", "build"]

/-- The lowercased file names included unconditionally. -/
def important_names : List String :=
  ["readme.md", "contributing.md", "license", "dockerfile", ".env.example"]

/-- The lowercased extensions included as code files. -/
def code_extensions : List String :=
  [".py", ".js", ".jsx", ".ts", ".tsx", ".go", ".java", ".rb", ".php",
   ".c", ".cpp", ".h", ".hpp"]

/-- Leading-dot stripping used by Python's `os.path.splitext`: an extension
separator only counts if some earlier character of the base name is not a
dot. -/
def dropLeadingDots : List Char → List Char
  | [] => []
  | c :: cs => if c = '.' then dropLeadingDots cs else c :: cs

/-- The suffix starting at the last `'.'` of the list (empty if there is
none). -/
def extFrom : List Char → List Char
  | [] => []
  | c :: cs =>
    let e := extFrom cs
    if e.isEmpty then (if c = '.' then c :: cs else []) else e

/-- `os.path.splitext(name)[1]` for a base name containing no path
separator: the extension starts at the last dot, except that dots leading
the name never start an extension (`splitext(".env") = (".env", "")`,
`splitext(".env.example") = (".env", ".example")`). -/
def splitext_ext (s : String) : String :=
  String.mk (extFrom (dropLeadingDots s.data))

/-- File selection of `_get_important_files`: the lowercased name is in the
fixed allow-list, or (`elif`) its `splitext` extension — computed on the
lowercased name — is an allow-listed code extension. -/
def is_important_file (name : String) : Bool :=
  important_names.contains (lower name)
    || code_extensions.contains (splitext_ext (lower name))

/-- `process_contents` (the inner helper of
`DocumentationService._get_important_files`): walk the listing in order;
a directory whose lowercased name is in `skip_dirs` is skipped entirely,
any other directory contributes its recursive result at its position in
the listing (`files.extend(...)`), and a file contributes its path when
`is_important_file` holds. -/
def process_contents : List Entry → List String
  | [] => []
  | .file name path :: rest =>
      (if is_important_file name then [path] else []) ++ process_contents rest
  | .dir name _ contents :: rest =>
      (if skip_dirs.contains (lower name) then [] else process_contents contents)
        ++ process_contents rest

/-- `DocumentationService._get_important_files` delegates to
`process_contents` on the root listing. -/
def _get_important_files (contents : List Entry) : List String :=
  process_contents contents

/-- Spec-side reachability: the file `⟨name, path⟩` occurs in the forest
without passing through any directory whose lowercased name is pruned. -/
inductive SelectableIn : List Entry → String → String → Prop where
  | here {es : List Entry} {name path : String} :
      Entry.file name path ∈ es → SelectableIn es name path
  | deeper {es : List Entry} {dname dpath : String} {contents : List Entry}
      {name path : String} :
      Entry.dir dname dpath contents ∈ es →
      skip_dirs.contains (lower dname) = false →
      SelectableIn contents name path →
      SelectableIn es name path

/-- The listing contribution of a single entry, as spliced in by
`process_contents` at the entry's position. -/
def entry_contribution : Entry → List String
  | .file name path => if is_important_file name then [path] else []
  | .dir name _ contents =>
      if skip_dirs.contains (lower name) then [] else process_contents contents

/-- A directory listing's own selected files, in listing order (the part
of the claimed ordering that would have to come first). -/
def own_selected_files (es : List Entry) : List String :=
  es.filterMap fun e =>
    match e with
    | .file name path => if is_important_file name then some path else none
    | .dir _ _ _ => none

/-- The concatenated contributions of the listing's subdirectories, in
listing order (the part the claim says comes after all own files). -/
def subdir_contributions (es : List Entry) : List String :=
  (es.map fun e =>
    match e with
    | .file _ _ => []
    | .dir name _ contents =>
        if skip_dirs.contains (lower name) then [] else process_contents contents).flatten

/-- A listing whose subdirectory precedes a selected file of the same
directory. -/
def c9_tree : List Entry :=
  [Entry.dir "d" "d" [Entry.file "x.py" "d/x.py"], Entry.file "a.py" "a.py"]

/-! ## Data model and persistence store

`FileDoc` is one `FileDocumentation` record; `RepoDocumentation` is the
aggregate assembled by `generate_repository_documentation` (the
`repository` sub-object flattened into the first five fields; `diagrams`
is the optional `{'flow': ...}` value attached by
`generate_documentation`).  The filesystem under `storage_dir` is
modelled as a map from directory key to the JSON record stored there. -/

structure FileDoc where
  file_path : String
  documentation : String
  generated_at : String
deriving DecidableEq

structure RepoDocumentation where
  name : String
  owner : String
  url : String
  description : String
  summary : String
  files : List FileDoc
  diagrams : Option String
  generated_at : String
deriving DecidableEq

def Store : Type := String → Option RepoDocumentation

def empty_store : Store := fun _ => none

/-- `repo_name.replace('/', '_')`: for a single-character pattern Python's
`str.replace` is exactly a per-character substitution. -/
def fsKeyChar (c : Char) : Char := if c = '/' then '_' else c

def fs_key (repo_name : String) : String :=
  String.mk (repo_name.data.map fsKeyChar)

/-- `DocumentationService._save_documentation`: write the JSON record (and
the derived Markdown rendering alongside it) under the directory
`storage_dir/<repo_name.replace('/', '_')>`. -/
def _save_documentation (repo_name : String) (documentation : RepoDocumentation)
    (store : Store) : Store :=
  fun key => if key = fs_key repo_name then some documentation else store key

/-- `DocumentationService.get_documentation`: read the JSON record stored
under `storage_dir/<repo_name.replace('/', '_')>`, `none` when the file
does not exist. -/
def get_documentation (store : Store) (repo_name : String) :
    Option RepoDocumentation :=
  store (fs_key repo_name)

def demo_doc : RepoDocumentation :=
  { name := "repo", owner := "octo", url := "u", description := "d",
    summary := "s", files := [], diagrams := none, generated_at := "t" }

/-! ## Context retriever (`ChatService.get_context_for_query`)

Python string operations are modelled at character level so that they
compute: `lower` above, `py_split` for `str.split()` (split on runs of
whitespace, discarding empty pieces), and `strContains` for the `in`
substring test. -/

def splitWsAux : List Char → List Char → List (List Char)
  | [], acc => if acc.isEmpty then [] else [acc.reverse]
  | c :: cs, acc =>
    if c.isWhitespace then
      if acc.isEmpty then splitWsAux cs [] else acc.reverse :: splitWsAux cs []
    else splitWsAux cs (c :: acc)

/-- Python `str.split()` with no separator: split on whitespace runs,
no empty tokens. -/
def py_split (s : String) : List String :=
  (splitWsAux s.data []).map String.mk

/-- Python `needle in hay` on strings: substring containment. -/
def strContains (hay needle : String) : Bool :=
  decide (needle.data <:+: hay.data)

/-- One step of the `for file_doc in documentation['files']` loop of
`get_context_for_query`: append the file-path line and the documentation
text when any lowercased query token occurs in the lowercased file path,
`elif` any occurs in the lowercased documentation text. -/
def context_step (keywords : List String) (ctx : List String)
    (file_doc : FileDoc) : List String :=
  if keywords.any (fun keyword => strContains (lower file_doc.file_path) keyword) then
    ctx ++ ["File: " ++ file_doc.file_path, file_doc.documentation]
  else if keywords.any (fun keyword => strContains (lower file_doc.documentation) keyword) then
    ctx ++ ["File: " ++ file_doc.file_path, file_doc.documentation]
  else ctx

/-- Python `sep.join(parts)`. -/
def str_join (sep : String) : List String → String
  | [] => ""
  | [s] => s
  | s :: s' :: rest => s ++ sep ++ str_join sep (s' :: rest)

/-- `ChatService.get_context_for_query`: sentinel when no documentation is
persisted; otherwise three header lines followed by the matching file
entries, all joined with `"\n\n"`. -/
def get_context_for_query (store : Store) (repo_name query : String) : String :=
  match get_documentation store repo_name with
  | none => "No documentation available for this repository."
  | some documentation =>
    let keywords := py_split (lower query)
    let relevant_context :=
      ["Repository: " ++ documentation.name,
       "Description: " ++ documentation.description,
       "Summary: " ++ documentation.summary]
    let relevant_context :=
      documentation.files.foldl (context_step keywords) relevant_context
    str_join "\n\n" relevant_context

/-- The inclusion condition of C5: some lowercased query token is a
substring of the lowercased file path or of the lowercased documentation
text. -/
def file_matches (keywords : List String) (fd : FileDoc) : Bool :=
  keywords.any (fun k => strContains (lower fd.file_path) k)
    || keywords.any (fun k => strContains (lower fd.documentation) k)

def c5_doc : RepoDocumentation :=
  { name := "r", owner := "o", url := "u", description := "d", summary := "s",
    files := [⟨"src/a.py", "handles auth", "t"⟩, ⟨"README.md", "intro", "t"⟩],
    diagrams := none, generated_at := "t" }

def c5_store : Store := _save_documentation "o/r" c5_doc empty_store

/-! ## AI service (`AIService`)

An LLM call site is abstracted as `attempts : Nat → Except String String`,
the outcome of the i-th invocation of the `api_call` closure handed to
`_retry_api_call`; `model_available` models `self.model` being non-`None`. -/

def ai_unavailable_msg : String :=
  "Error: AI service not available. Please check your GEMINI_API_KEY environment variable."

/-- `AIService.analyze_code`: unavailable-service message without a model;
otherwise the retried LLM response text, except that a propagated failure
(exhausted retries) is caught and turned into an error string — it is
*returned*, not raised. -/
def analyze_code (model_available : Bool) (attempts : Nat → Except String String)
    (max_retries initial_delay : Nat) : String :=
  if model_available = false then ai_unavailable_msg
  else
    match (retry_api_call attempts max_retries initial_delay).1 with
    | .ok response => response
    | .error e => "Error analyzing code: " ++ e

/-- `AIService.generate_repository_summary`: same shape as `analyze_code`;
an exhausted retry budget is caught and becomes the returned string
`"Error generating repository summary: ..."`. -/
def generate_repository_summary (model_available : Bool)
    (attempts : Nat → Except String String) (max_retries initial_delay : Nat) :
    String :=
  if model_available = false then ai_unavailable_msg
  else
    match (retry_api_call attempts max_retries initial_delay).1 with
    | .ok response => response
    | .error e => "Error generating repository summary: " ++ e

/-! ## Documentation generator (`DocumentationService`) -/

/-- Result of `github_service.get_repository_contents(repo_name, path)` for
one path: a directory listing, a file blob whose `decoded_content.decode`
either yields text or raises, or a raised fetch error. -/
inductive FetchResult : Type where
  | listing : List Entry → FetchResult
  | blob : Except String String → FetchResult
  | failure : String → FetchResult

/-- The repository metadata consumed from the GitHub repository object. -/
structure RepoInfo where
  name : String
  owner_login : String
  html_url : String
  description : String
  language : String
  topics : List String

/-- The external world of one generation run: the GitHub collaborator
(repository metadata, root listing, per-path fetch) and the LLM
collaborator (per-call-site attempt outcomes), plus the retry parameters
and the timestamp. -/
structure GenEnv where
  model_available : Bool
  max_retries : Nat
  initial_delay : Nat
  get_repository : Except String RepoInfo
  root_contents : Except String (List Entry)
  fetch : String → FetchResult
  summary_attempts : Nat → Except String String
  code_attempts : String → Nat → Except String String
  now : String

/-- `DocumentationService.generate_file_documentation`: any exception in
the body (content fetch failed, decode failed) is caught and yields
`None`; a directory path yields `None`; otherwise the file's record is
built with `analyze_code`'s return value as documentation text (note that
`analyze_code` never raises on LLM failure — it returns an error string). -/
def generate_file_documentation (env : GenEnv) (file_path : String) :
    Option FileDoc :=
  match env.fetch file_path with
  | .failure _ => none
  | .listing _ => none
  | .blob (.error _) => none
  | .blob (.ok _) =>
      some { file_path := file_path,
             documentation := analyze_code env.model_available
               (env.code_attempts file_path) env.max_retries env.initial_delay,
             generated_at := env.now }

/-- `DocumentationService.generate_repository_documentation`: fetch the
repository and its root listing (a raised error in either aborts the run
with `None` and no store write), generate the summary, select important
files, collect the per-file records (`if file_doc:` keeps exactly the
non-`None` results, in order), assemble the aggregate, and only then save
it. -/
def assemble_documentation (env : GenEnv) (repo : RepoInfo)
    (contents : List Entry) : RepoDocumentation :=
  { name := repo.name
    owner := repo.owner_login
    url := repo.html_url
    description := repo.description
    summary := generate_repository_summary env.model_available
      env.summary_attempts env.max_retries env.initial_delay
    files := (_get_important_files contents).filterMap
      (generate_file_documentation env)
    diagrams := none
    generated_at := env.now }

def generate_repository_documentation (env : GenEnv) (repo_name : String)
    (store : Store) : Option RepoDocumentation × Store :=
  match env.get_repository with
  | .error _ => (none, store)
  | .ok repo =>
    match env.root_contents with
    | .error _ => (none, store)
    | .ok contents =>
      let documentation := assemble_documentation env repo contents
      (some documentation, _save_documentation repo_name documentation store)

def c1_repo : RepoInfo :=
  { name := "r", owner_login := "o", html_url := "u", description := "d",
    language := "py", topics := [] }

/-- A run whose repository-summary LLM call fails on every attempt. -/
def c1_env : GenEnv :=
  { model_available := true, max_retries := 3, initial_delay := 1,
    get_repository := .ok c1_repo, root_contents := .ok [],
    fetch := fun _ => .failure "unused",
    summary_attempts := fun _ => .error "boom",
    code_attempts := fun _ _ => .error "unused",
    now := "t0" }

def c1_doc : RepoDocumentation :=
  { name := "r", owner := "o", url := "u", description := "d",
    summary := "Error generating repository summary: boom",
    files := [], diagrams := none, generated_at := "t0" }

def c3_contents : List Entry := [Entry.file "a.py" "a.py", Entry.file "b.py" "b.py"]

/-- A run with two important files: `a.py`'s LLM call succeeds at once,
`b.py`'s LLM call fails on every attempt. -/
def c3_env : GenEnv :=
  { model_available := true, max_retries := 3, initial_delay := 1,
    get_repository := .ok c1_repo,
    root_contents := .ok c3_contents,
    fetch := fun _ => .blob (.ok "code"),
    summary_attempts := fun _ => .ok "summary",
    code_attempts := fun p _ => if p = "a.py" then .ok "docA" else .error "boom",
    now := "t0" }

def c6_env : GenEnv :=
  { model_available := true, max_retries := 3, initial_delay := 1,
    get_repository := .error "404: repository not found",
    root_contents := .error "unused",
    fetch := fun _ => .failure "unused",
    summary_attempts := fun _ => .error "unused",
    code_attempts := fun _ _ => .error "unused",
    now := "t0" }

def c6_prev_store : Store := _save_documentation "x/y" demo_doc empty_store

/-! ## Diagram generation (`AIService.generate_mermaid_diagram`) and
Markdown rendering (`DocumentationService._generate_markdown`)

The Python string methods used by the diagram clean-up are modelled at
character level: `py_strip` for `str.strip()`, `py_splitlines` for
`str.splitlines()` (on `'\n'`), `startswith`/`endswith` for the
corresponding methods. -/

def startswith (s pre : String) : Bool := decide (pre.data <+: s.data)

def endswith (s suf : String) : Bool := decide (suf.data <:+ s.data)

/-- Python `str.strip()`: drop leading and trailing whitespace. -/
def py_strip (s : String) : String :=
  String.mk
    (((s.data.dropWhile Char.isWhitespace).reverse.dropWhile
      Char.isWhitespace).reverse)

def splitNlAux : List Char → List Char → List (List Char)
  | [], acc => [acc.reverse]
  | c :: cs, acc =>
    if c = '\n' then acc.reverse :: splitNlAux cs []
    else splitNlAux cs (c :: acc)

/-- Python `str.splitlines()` (specialised to `'\n'` separators, the only
ones arising here): no trailing empty piece for a trailing newline, empty
list for the empty string. -/
def py_splitlines (s : String) : List String :=
  if s.data.isEmpty then []
  else
    (if endswith s "\n" then (splitNlAux s.data []).dropLast
     else splitNlAux s.data []).map String.mk

/-- The fence clean-up of `generate_mermaid_diagram`:
`''.join(line for line in diagram.splitlines() if not line.startswith("```")
and not line.endswith("```")).strip()` — note the *empty* join separator,
exactly as in the source. -/
def strip_fences (diagram : String) : String :=
  py_strip (String.join ((py_splitlines diagram).filter fun line =>
    !(startswith line "```") && !(endswith line "```")))

/-- One line of the re-indentation loop: `line.strip()`, kept as-is when it
starts a `subgraph` or is `end`, indented by four spaces otherwise. -/
def format_diagram_line (line : String) : String :=
  let line := py_strip line
  if startswith line "subgraph" then line
  else if line = "end" then line
  else "    " ++ line

/-- The placeholder returned when `self.model` is `None`. -/
def unavailable_diagram : String :=
  "```mermaid\n    flowchart LR\n        E[Error] -->|AI Service Not Available| M[Check API Key]\n    ```"

/-- The placeholder returned from the `except` handler (LLM failure after
retries, or the `ValueError` raised when the cleaned diagram has no
`-->`). -/
def failed_diagram : String :=
  "```mermaid\n    flowchart LR\n        E[Error] -->|Generation failed| M[Please try again]\n    ```"

/-- The post-processing applied to a successful LLM response: strip, fence
removal when "```" occurs, `flowchart LR` prepended when the text does not
already start with `flowchart`, then per-line re-indentation joined with
newlines. -/
def clean_diagram (response : String) : String :=
  let diagram := py_strip response
  let diagram := if strContains diagram "```" then strip_fences diagram
                 else diagram
  let diagram := if startswith diagram "flowchart" then diagram
                 else "flowchart LR\n" ++ diagram
  str_join "\n" ((py_splitlines diagram).map format_diagram_line)

/-- `AIService.generate_mermaid_diagram`: placeholder without a model;
placeholder when the retried LLM call fails; otherwise the cleaned diagram
is validated — no `-->` raises a `ValueError` caught by the same handler
(placeholder) — and the surviving diagram is wrapped in a
` ```mermaid ` fence. -/
def generate_mermaid_diagram (model_available : Bool)
    (attempts : Nat → Except String String) (max_retries initial_delay : Nat) :
    String :=
  if model_available = false then unavailable_diagram
  else
    match (retry_api_call attempts max_retries initial_delay).1 with
    | .error _ => failed_diagram
    | .ok response =>
      let diagram := clean_diagram response
      if strContains diagram "-->" = false then failed_diagram
      else "```mermaid\n" ++ diagram ++ "\n```"

/-- `DocumentationService.generate_documentation`: repository analysis
(`analyze_repository` re-raises its failures), the diagram call (which
never raises), then `generate_repository_documentation`;
`documentation['diagrams'] = {...}` raises a `TypeError` caught by the
handler when the latter returned `None`.  Note the store write happens
inside `generate_repository_documentation`, before the diagram is
attached to the returned record. -/
def generate_documentation (env : GenEnv) (analysis : Except String Unit)
    (diagram_attempts : Nat → Except String String) (repo_name : String)
    (store : Store) : Option RepoDocumentation × Store :=
  match analysis with
  | .error _ => (none, store)
  | .ok _ =>
    let flow := generate_mermaid_diagram env.model_available diagram_attempts
      env.max_retries env.initial_delay
    match generate_repository_documentation env repo_name store with
    | (none, store') => (none, store')
    | (some documentation, store') =>
        (some { documentation with diagrams := some flow }, store')

/-- The list of Markdown lines built by `_generate_markdown` (joined with
`"\n"` by `_generate_markdown` itself). -/
def markdown_lines (documentation : RepoDocumentation) : List String :=
  (["# " ++ documentation.name ++ " Documentation", "",
    "## Repository", "",
    "**Name:** " ++ documentation.name,
    "**Owner:** " ++ documentation.owner,
    "**URL:** " ++ documentation.url,
    "**Description:** " ++ documentation.description, "",
    "## Summary", "",
    documentation.summary, "",
    "## Files", ""] ++
   documentation.files.flatMap (fun file_doc =>
     ["### " ++ file_doc.file_path, "", file_doc.documentation, ""]) ++
   (match documentation.diagrams with
    | none => []
    | some flow => ["## Diagrams", "", "### Flow Diagram", "",
        "```mermaid\n" ++ flow ++ "\n```", ""])) ++
  ["---", "Generated at: " ++ documentation.generated_at]

/-- `DocumentationService._generate_markdown`: `"\n".join(md)` over the
line list, with the diagrams section wrapping `documentation['diagrams']['flow']`
in a ` ```mermaid ` fence of its own. -/
def _generate_markdown (documentation : RepoDocumentation) : String :=
  str_join "\n" (markdown_lines documentation)

def c10_doc : RepoDocumentation :=
  { name := "r", owner := "o", url := "u", description := "d", summary := "s",
    files := [],
    diagrams := some (generate_mermaid_diagram true
      (fun _ => Except.ok "A --> B") 3 1),
    generated_at := "t" }

/-! ## Theorems -/

theorem backoffSum_closed (d : Nat) : ∀ k i, backoffSum d i k = d * 2 ^ i * (2 ^ k - 1)
  | 0, i => by simp [backoffSum]
  | k + 1, i => by
    rw [backoffSum, backoffSum_closed d k (i + 1)]
    obtain ⟨m, hm⟩ : ∃ m, 2 ^ k = m + 1 :=
      ⟨2 ^ k - 1, by have : (1 : Nat) ≤ 2 ^ k := Nat.one_le_two_pow; omega⟩
    rw [pow_succ, pow_succ, hm]
    have h1 : m + 1 - 1 = m := by omega
    have h2 : (m + 1) * 2 - 1 = 2 * m + 1 := by omega
    rw [h1, h2]
    ring

theorem retryGo_ok {E A : Type} (attempts : Nat → Except E A) (d : Nat) (a : A) :
    ∀ (k remaining i acc : Nat),
      (∀ j, j < k → ∃ e, attempts (i + j) = .error e) →
      attempts (i + k) = .ok a → k ≤ remaining →
      retryGo attempts d remaining i acc = (.ok a, acc + backoffSum d i k, i + k + 1)
  | 0, remaining, i, acc, _, hok, _ => by
    rw [retryGo]
    simp only [Nat.add_zero] at hok
    simp [hok, backoffSum]
  | k + 1, remaining, i, acc, hfail, hok, hle => by
    rw [retryGo]
    obtain ⟨e, he⟩ := hfail 0 (Nat.succ_pos k)
    simp only [Nat.add_zero] at he
    obtain ⟨r, rfl⟩ : ∃ r, remaining = r + 1 := by
      cases remaining with
      | zero => omega
      | succ r => exact ⟨r, rfl⟩
    have ih := retryGo_ok attempts d a k r (i + 1) (acc + d * 2 ^ i)
      (fun j hj => by
        have := hfail (j + 1) (by omega)
        simpa [Nat.add_assoc, Nat.add_comm 1 j] using this)
      (by simpa [Nat.add_assoc, Nat.add_comm 1 k] using hok)
      (by omega)
    simp only [he]
    rw [ih, backoffSum]
    simp only [Prod.mk.injEq]
    refine ⟨by trivial, by omega, by omega⟩

theorem retryGo_error {E A : Type} (attempts : Nat → Except E A) (d : Nat) (e : Nat → E) :
    ∀ (remaining i acc : Nat),
      (∀ j, j ≤ remaining → attempts (i + j) = .error (e (i + j))) →
      retryGo attempts d remaining i acc =
        (.error (e (i + remaining)), acc + backoffSum d i remaining, i + remaining + 1)
  | 0, i, acc, hfail => by
    rw [retryGo]
    have := hfail 0 (Nat.le_refl 0)
    simp only [Nat.add_zero] at this
    simp [this, backoffSum]
  | remaining + 1, i, acc, hfail => by
    rw [retryGo]
    have h0 := hfail 0 (Nat.zero_le _)
    simp only [Nat.add_zero] at h0
    have ih := retryGo_error attempts d e remaining (i + 1) (acc + d * 2 ^ i)
      (fun j hj => by
        have := hfail (j + 1) (by omega)
        simpa [Nat.add_assoc, Nat.add_comm 1 j] using this)
    simp only [h0]
    rw [ih, backoffSum]
    simp only [Prod.mk.injEq]
    refine ⟨by rw [Nat.add_assoc, Nat.add_comm 1 remaining], by omega, by omega⟩

/-- C2: `_retry_api_call` with parameters `max_retries` and `initial_delay`:
if the wrapped operation fails exactly `k ≤ max_retries` times and then
succeeds, the wrapper returns the success value after `k + 1` total calls
with total sleep `initial_delay * (2 ^ k - 1)` seconds (which equals
`Σ_{i=1}^{k} initial_delay * 2 ^ (i-1)`); if the operation fails
`max_retries + 1` times, the final failure is re-raised after exactly
`max_retries + 1` calls (no further attempt). -/
theorem retry_api_call_spec {E A : Type} (attempts : Nat → Except E A)
    (max_retries initial_delay k : Nat) (a : A) (e : Nat → E) :
    ((∀ i, i < k → ∃ err, attempts i = .error err) → attempts k = .ok a →
      k ≤ max_retries →
      retry_api_call attempts max_retries initial_delay =
        (.ok a, initial_delay * (2 ^ k - 1), k + 1)) ∧
    ((∀ i, i ≤ max_retries → attempts i = .error (e i)) →
      retry_api_call attempts max_retries initial_delay =
        (.error (e max_retries), initial_delay * (2 ^ max_retries - 1),
          max_retries + 1)) := by
  constructor
  · intro hfail hok hle
    have h := retryGo_ok attempts initial_delay a k max_retries 0 0
      (fun j hj => by simpa using hfail j hj) (by simpa using hok) hle
    rw [retry_api_call, h, backoffSum_closed]
    simp
  · intro hfail
    have h := retryGo_error attempts initial_delay e max_retries 0 0
      (fun j hj => by simpa using hfail j hj)
    rw [retry_api_call, h, backoffSum_closed]
    simp

/-- Witness for C2 at concrete inputs: an operation failing twice then
returning 7 succeeds with 3 calls and total sleep 1+2 = 3; an operation
that always fails propagates the error of call index 3 after 4 calls with
total sleep 1+2+4 = 7. -/
theorem retry_api_call_spec_witness :
    retry_api_call (fun i => if i < 2 then Except.error i else Except.ok 7) 3 1 =
      (Except.ok 7, 3, 3) ∧
    retry_api_call (fun i => (Except.error i : Except Nat Nat)) 3 1 =
      (Except.error 3, 7, 4) := by
  constructor
  · have h := (retry_api_call_spec (fun i => if i < 2 then Except.error i else Except.ok 7)
      3 1 2 7 (fun i => i)).1
      (fun i hi => ⟨i, by simp [hi]⟩) (by simp) (by omega)
    simpa using h
  · have h := (retry_api_call_spec (fun i => (Except.error i : Except Nat Nat))
      3 1 0 0 (fun i => i)).2 (fun i _ => rfl)
    simpa using h

theorem SelectableIn.tail {e : Entry} {es : List Entry} {name p : String}
    (h : SelectableIn es name p) : SelectableIn (e :: es) name p := by
  cases h with
  | here hmem => exact .here (List.mem_cons_of_mem _ hmem)
  | deeper hmem hns hsub => exact .deeper (List.mem_cons_of_mem _ hmem) hns hsub

/-- C4: a path is returned by the important-file walk iff it is the path of
a file that is reachable without descending into any directory whose
lowercased name is `.git`, `node_modules`, `venv`, `dist` or `build` (so
every path lying under such a directory, at any depth, is excluded), and
whose name passes the allow-list/extension filter of `is_important_file`. -/
theorem mem_get_important_files (es : List Entry) (p : String) :
    p ∈ _get_important_files es ↔
      ∃ name, SelectableIn es name p ∧ is_important_file name = true := by
  rw [_get_important_files]
  induction es using process_contents.induct with
  | case1 =>
    rw [process_contents]
    simp only [List.not_mem_nil, false_iff]
    rintro ⟨name, h, -⟩
    cases h with
    | here hmem => exact absurd hmem (List.not_mem_nil _)
    | deeper hmem _ _ => exact absurd hmem (List.not_mem_nil _)
  | case2 n pa rest ih =>
    rw [process_contents]
    constructor
    · intro hp
      rcases List.mem_append.1 hp with hp | hp
      · by_cases himp : is_important_file n
        · simp only [himp, if_pos] at hp
          rcases List.mem_singleton.1 hp with rfl
          exact ⟨n, .here (List.mem_cons_self _ _), himp⟩
        · simp [himp] at hp
      · obtain ⟨name, h, hi⟩ := ih.1 hp
        exact ⟨name, h.tail, hi⟩
    · rintro ⟨name, h, hi⟩
      cases h with
      | here hmem =>
        rcases List.mem_cons.1 hmem with heq | hmem
        · cases heq
          exact List.mem_append.2 (Or.inl (by simp [hi]))
        · exact List.mem_append.2 (Or.inr (ih.2 ⟨name, .here hmem, hi⟩))
      | deeper hmem hns hsub =>
        rcases List.mem_cons.1 hmem with heq | hmem
        · exact absurd heq (by simp)
        · exact List.mem_append.2 (Or.inr (ih.2 ⟨name, .deeper hmem hns hsub, hi⟩))
  | case3 n pa contents rest ihc ihr =>
    rw [process_contents]
    constructor
    · intro hp
      by_cases hskip : skip_dirs.contains (lower n) = true
      · rw [if_pos hskip, List.nil_append] at hp
        obtain ⟨name, h, hi⟩ := ihr.1 hp
        exact ⟨name, h.tail, hi⟩
      · rw [if_neg hskip] at hp
        rcases List.mem_append.1 hp with hp | hp
        · obtain ⟨name, h, hi⟩ := ihc.1 hp
          exact ⟨name, .deeper (List.mem_cons_self _ _) (by simpa using hskip) h, hi⟩
        · obtain ⟨name, h, hi⟩ := ihr.1 hp
          exact ⟨name, h.tail, hi⟩
    · rintro ⟨name, h, hi⟩
      cases h with
      | here hmem =>
        rcases List.mem_cons.1 hmem with heq | hmem
        · exact absurd heq (by simp)
        · exact List.mem_append.2 (Or.inr (ihr.2 ⟨name, .here hmem, hi⟩))
      | deeper hmem hns hsub =>
        rcases List.mem_cons.1 hmem with heq | hmem
        · injection heq with h1 h2 h3
          subst h1; subst h3
          refine List.mem_append.2 (Or.inl ?_)
          simp only [hns, Bool.false_eq_true, if_false]
          exact ihc.2 ⟨name, hsub, hi⟩
        · exact List.mem_append.2 (Or.inr (ihr.2 ⟨name, .deeper hmem hns hsub, hi⟩))

/-- C9 counterexample: on a listing that places a subdirectory before a
sibling file, the walk emits the subdirectory's path first, so the result
is not "the directory's own selected files followed by the subdirectory
contributions". -/
theorem process_contents_not_own_files_first :
    process_contents c9_tree = ["d/x.py", "a.py"] ∧
    own_selected_files c9_tree ++ subdir_contributions c9_tree = ["a.py", "d/x.py"] ∧
    process_contents c9_tree ≠
      own_selected_files c9_tree ++ subdir_contributions c9_tree := by
  have h1 : process_contents c9_tree = ["d/x.py", "a.py"] := by
    simp +decide [c9_tree, process_contents]
  have h2 : own_selected_files c9_tree ++ subdir_contributions c9_tree =
      ["a.py", "d/x.py"] := by
    simp +decide [c9_tree, own_selected_files, subdir_contributions, process_contents]
  refine ⟨h1, h2, ?_⟩
  rw [h1, h2]
  decide

theorem process_contents_append (xs ys : List Entry) :
    process_contents (xs ++ ys) = process_contents xs ++ process_contents ys := by
  induction xs using process_contents.induct with
  | case1 => simp [process_contents]
  | case2 n pa rest ih =>
    rw [List.cons_append, process_contents, process_contents, ih, List.append_assoc]
  | case3 n pa contents rest ihc ihr =>
    rw [List.cons_append, process_contents, process_contents, ihr, List.append_assoc]

/-- C9 (amended): the walk processes entries in external-listing order,
splicing each entry's contribution — a file's selected path, or a
non-pruned directory's whole recursive result — at that entry's position
in the listing; it does not move a directory's own files ahead of the
contributions of subdirectories that the listing places earlier. -/
theorem process_contents_listing_order (xs ys : List Entry) (e : Entry) :
    process_contents (xs ++ e :: ys) =
      process_contents xs ++ entry_contribution e ++ process_contents ys := by
  rw [process_contents_append, List.append_assoc]
  cases e with
  | file name path => rw [process_contents, entry_contribution]
  | dir name path contents => rw [process_contents, entry_contribution]

/-- C7 counterexample: `"a_b/c"` and `"a/b_c"` are two distinct owner/repo
names (each contains exactly one `'/'`) that map to the same filesystem
key, so the `'/'`→`'_'` mapping is not injective on the owner/repo input
domain. -/
theorem fs_key_collision :
    fs_key "a_b/c" = fs_key "a/b_c" ∧ "a_b/c" ≠ "a/b_c" ∧
    "a_b/c".data.count '/' = 1 ∧ "a/b_c".data.count '/' = 1 := by
  refine ⟨by decide, by decide, by decide, by decide⟩

theorem map_fsKeyChar_of_no_slash {l : List Char} (h : '/' ∉ l) :
    l.map fsKeyChar = l := by
  induction l with
  | nil => rfl
  | cons c cs ih =>
    simp only [List.mem_cons, not_or] at h
    simp only [List.map_cons, List.cons.injEq]
    exact ⟨by simp [fsKeyChar, Ne.symm h.1], ih h.2⟩

theorem append_underscore_inj : ∀ (o₁ o₂ r₁ r₂ : List Char), '_' ∉ o₁ → '_' ∉ o₂ →
    o₁ ++ '_' :: r₁ = o₂ ++ '_' :: r₂ → o₁ = o₂ ∧ r₁ = r₂
  | [], [], r₁, r₂, _, _, h => by simpa using h
  | [], d :: ds, r₁, r₂, _, h₂, h => by
    simp only [List.nil_append, List.cons_append, List.cons.injEq] at h
    rw [← h.1] at h₂
    exact absurd (List.mem_cons_self '_' ds) h₂
  | c :: cs, [], r₁, r₂, h₁, _, h => by
    simp only [List.nil_append, List.cons_append, List.cons.injEq] at h
    rw [h.1] at h₁
    exact absurd (List.mem_cons_self '_' cs) h₁
  | c :: cs, d :: ds, r₁, r₂, h₁, h₂, h => by
    simp only [List.cons_append, List.cons.injEq] at h
    have ih := append_underscore_inj cs ds r₁ r₂
      (fun hm => h₁ (List.mem_cons_of_mem _ hm))
      (fun hm => h₂ (List.mem_cons_of_mem _ hm)) h.2
    exact ⟨by rw [h.1, ih.1], ih.2⟩

/-- C7 (amended): the `'/'`→`'_'` key mapping is used identically on the
write path (`_save_documentation`) and the read path (`get_documentation`):
reading immediately after a successful save returns the saved record, and
a save never disturbs any name with a different key.  The mapping is
however not injective on all owner/repo names (see the counterexample);
it is injective on the restricted domain where the owner part contains no
underscore (and neither part contains a slash) — in particular on real
GitHub owner names, which cannot contain `'_'`. -/
theorem fs_key_read_write_consistent :
    (∀ (store : Store) (doc : RepoDocumentation) (n : String),
      get_documentation (_save_documentation n doc store) n = some doc) ∧
    (∀ (store : Store) (doc : RepoDocumentation) (n m : String),
      fs_key m ≠ fs_key n →
      get_documentation (_save_documentation n doc store) m =
        get_documentation store m) ∧
    (∀ (o₁ r₁ o₂ r₂ : String),
      '/' ∉ o₁.data → '_' ∉ o₁.data → '/' ∉ r₁.data →
      '/' ∉ o₂.data → '_' ∉ o₂.data → '/' ∉ r₂.data →
      fs_key (o₁ ++ "/" ++ r₁) = fs_key (o₂ ++ "/" ++ r₂) →
      o₁ = o₂ ∧ r₁ = r₂) := by
  refine ⟨?_, ?_, ?_⟩
  · intro store doc n
    simp [get_documentation, _save_documentation]
  · intro store doc n m hne
    simp [get_documentation, _save_documentation, hne]
  · intro o₁ r₁ o₂ r₂ ho₁ hu₁ hr₁ ho₂ hu₂ hr₂ h
    have hdata : ((o₁ ++ "/" ++ r₁).data).map fsKeyChar =
        ((o₂ ++ "/" ++ r₂).data).map fsKeyChar := by
      have := congrArg String.data h
      simpa [fs_key] using this
    rw [String.data_append, String.data_append, String.data_append,
      String.data_append] at hdata
    have hslash : "/".data = ['/'] := rfl
    rw [hslash] at hdata
    simp only [List.map_append, map_fsKeyChar_of_no_slash ho₁,
      map_fsKeyChar_of_no_slash hr₁, map_fsKeyChar_of_no_slash ho₂,
      map_fsKeyChar_of_no_slash hr₂] at hdata
    have hus : ['/'].map fsKeyChar = ['_'] := rfl
    rw [hus] at hdata
    have h' := append_underscore_inj o₁.data o₂.data r₁.data r₂.data hu₁ hu₂
      (by simpa using hdata)
    exact ⟨String.ext h'.1, String.ext h'.2⟩

/-- Witness for C7 (amended) at concrete inputs: saving under
`"octo/repo"` and reading the same name back returns the record, a name
with a different key is untouched, and the restricted-domain injectivity
instance at `"octo" / "repo"` holds. -/
theorem fs_key_read_write_consistent_witness :
    get_documentation (_save_documentation "octo/repo" demo_doc empty_store)
      "octo/repo" = some demo_doc ∧
    get_documentation (_save_documentation "octo/repo" demo_doc empty_store)
      "octo/other" = none ∧
    ("octo" : String) = "octo" ∧ ("repo" : String) = "repo" := by
  refine ⟨fs_key_read_write_consistent.1 empty_store demo_doc "octo/repo", ?_, ?_⟩
  · have h := fs_key_read_write_consistent.2.1 empty_store demo_doc
      "octo/repo" "octo/other" (by decide)
    rw [h]
    rfl
  · have h := fs_key_read_write_consistent.2.2 "octo" "repo" "octo" "repo"
      (by decide) (by decide) (by decide) (by decide) (by decide) (by decide)
      rfl
    exact h

theorem context_step_eq (keywords : List String) (ctx : List String)
    (fd : FileDoc) :
    context_step keywords ctx fd =
      ctx ++ (if file_matches keywords fd
        then ["File: " ++ fd.file_path, fd.documentation] else []) := by
  rw [context_step, file_matches]
  by_cases hp : keywords.any (fun k => strContains (lower fd.file_path) k) = true
  · simp [hp]
  · by_cases hd : keywords.any (fun k => strContains (lower fd.documentation) k) = true
    · simp [hp, hd]
    · simp [hp, hd]

theorem foldl_context_step (keywords : List String) :
    ∀ (files : List FileDoc) (acc : List String),
      files.foldl (context_step keywords) acc =
        acc ++ (files.filter (file_matches keywords)).flatMap
          (fun fd => ["File: " ++ fd.file_path, fd.documentation])
  | [], acc => by simp
  | fd :: files, acc => by
    rw [List.foldl_cons, foldl_context_step keywords files, context_step_eq]
    by_cases h : file_matches keywords fd = true
    · simp [h, List.filter_cons, List.append_assoc]
    · simp [h, List.filter_cons]

/-- C5: `get_context_for_query` returns the sentinel string when no
documentation is persisted for the repository; otherwise it returns the
three header lines followed — in the files' original order, joined by
`"\n\n"` — by exactly the entries (file-path line plus documentation text)
of the files for which at least one lowercased whitespace token of the
query is a substring of the lowercased file path or of the lowercased
documentation text, each matching file appearing exactly once; with no
matching file only the three header lines remain. -/
theorem get_context_for_query_spec (store : Store) (repo_name query : String) :
    (get_documentation store repo_name = none →
      get_context_for_query store repo_name query =
        "No documentation available for this repository.") ∧
    (∀ doc, get_documentation store repo_name = some doc →
      get_context_for_query store repo_name query =
        str_join "\n\n"
          (["Repository: " ++ doc.name, "Description: " ++ doc.description,
            "Summary: " ++ doc.summary] ++
            (doc.files.filter (file_matches (py_split (lower query)))).flatMap
              (fun fd => ["File: " ++ fd.file_path, fd.documentation]))) := by
  constructor
  · intro h
    rw [get_context_for_query, h]
  · intro doc h
    rw [get_context_for_query, h]
    simp only [foldl_context_step]

/-- Witness for C5 at the spec's own example: with files `src/a.py`
("handles auth") and `README.md` ("intro"), the query `"auth"` yields the
three header lines plus only the `src/a.py` entry, and a query with no
matching token yields only the three header lines. -/
theorem get_context_for_query_spec_witness :
    get_context_for_query c5_store "o/r" "auth" =
      "Repository: r\n\nDescription: d\n\nSummary: s\n\nFile: src/a.py\n\nhandles auth" ∧
    get_context_for_query c5_store "o/r" "zzz" =
      "Repository: r\n\nDescription: d\n\nSummary: s" ∧
    get_context_for_query empty_store "o/r" "auth" =
      "No documentation available for this repository." := by
  refine ⟨?_, ?_, ?_⟩
  · have h := (get_context_for_query_spec c5_store "o/r" "auth").2 c5_doc rfl
    rw [h]
    decide
  · have h := (get_context_for_query_spec c5_store "o/r" "zzz").2 c5_doc rfl
    rw [h]
    decide
  · exact (get_context_for_query_spec empty_store "o/r" "auth").1 rfl

/-- C1 counterexample: in `c1_env` the repository-summary call exhausts
its retry budget (the retry wrapper re-raises `"boom"`), yet the
generation run does not abort: it returns a full record whose summary is
the error string and persists it — contradicting "fails fatally, no
partial record persisted". -/
theorem summary_exhaustion_not_fatal :
    (retry_api_call c1_env.summary_attempts c1_env.max_retries
        c1_env.initial_delay).1 = .error "boom" ∧
    (generate_repository_documentation c1_env "o/r" empty_store).1 = some c1_doc ∧
    get_documentation
      (generate_repository_documentation c1_env "o/r" empty_store).2 "o/r" =
      some c1_doc := by
  have hif : _get_important_files ([] : List Entry) = [] := by
    rw [_get_important_files, process_contents]
  have hstep : generate_repository_documentation c1_env "o/r" empty_store =
      (some (assemble_documentation c1_env c1_repo []),
        _save_documentation "o/r" (assemble_documentation c1_env c1_repo [])
          empty_store) := rfl
  have hdoc : assemble_documentation c1_env c1_repo [] = c1_doc := by
    rw [assemble_documentation, hif]
    rfl
  refine ⟨rfl, ?_, ?_⟩
  · rw [hstep, hdoc]
  · rw [hstep, hdoc]
    simp [get_documentation, _save_documentation]

/-- C1 (amended): when the repository-summary LLM call exhausts its retry
budget, the retry wrapper's re-raised error is caught inside
`generate_repository_summary` and returned as the string
`"Error generating repository summary: <error>"`; the generation run
continues, succeeds, and persists a full record whose summary field is
that error string — it does not abort and the record is written. -/
theorem generate_repository_documentation_summary_exhausted (env : GenEnv)
    (repo_name : String) (store : Store) (repo : RepoInfo)
    (contents : List Entry) (e : Nat → String)
    (hm : env.model_available = true)
    (hr : env.get_repository = .ok repo)
    (hc : env.root_contents = .ok contents)
    (he : ∀ i, i ≤ env.max_retries → env.summary_attempts i = .error (e i)) :
    ∃ doc, generate_repository_documentation env repo_name store =
        (some doc, _save_documentation repo_name doc store) ∧
      doc.summary = "Error generating repository summary: " ++ e env.max_retries ∧
      get_documentation
        (generate_repository_documentation env repo_name store).2 repo_name =
        some doc := by
  have hretry : (retry_api_call env.summary_attempts env.max_retries
      env.initial_delay).1 = .error (e env.max_retries) := by
    have h := retryGo_error env.summary_attempts env.initial_delay e
      env.max_retries 0 0 (fun j hj => by simpa using he j hj)
    rw [retry_api_call, h]
    simp
  have hsummary : generate_repository_summary env.model_available
      env.summary_attempts env.max_retries env.initial_delay =
      "Error generating repository summary: " ++ e env.max_retries := by
    rw [generate_repository_summary, hm]
    simp only [Bool.true_eq_false, if_false]
    rw [hretry]
  refine ⟨assemble_documentation env repo contents, ?_, ?_, ?_⟩
  · rw [generate_repository_documentation, hr, hc]
  · simpa [assemble_documentation] using hsummary
  · rw [generate_repository_documentation, hr, hc]
    simp [get_documentation, _save_documentation]

/-- Witness for C1 (amended) at `c1_env`. -/
theorem generate_repository_documentation_summary_exhausted_witness :
    ∃ doc, generate_repository_documentation c1_env "o/r" empty_store =
        (some doc, _save_documentation "o/r" doc empty_store) ∧
      doc.summary = "Error generating repository summary: " ++ "boom" ∧
      get_documentation
        (generate_repository_documentation c1_env "o/r" empty_store).2 "o/r" =
        some doc :=
  generate_repository_documentation_summary_exhausted c1_env "o/r" empty_store
    c1_repo [] (fun _ => "boom") rfl rfl rfl (fun _ _ => rfl)

/-- C3 counterexample: in `c3_env`, file `b.py` exhausts its retries, yet
the resulting `files` list has TWO entries, not one — `b.py` is not
omitted; it is kept with the error string `"Error analyzing code: boom"`
as its documentation text. -/
theorem per_file_exhaustion_not_omitted_cex :
    (generate_repository_documentation c3_env "o/r" empty_store).1.map
        (fun d => d.files) =
      some [⟨"a.py", "docA", "t0"⟩,
            ⟨"b.py", "Error analyzing code: boom", "t0"⟩] ∧
    (generate_repository_documentation c3_env "o/r" empty_store).1.map
        (fun d => d.files.length) ≠ some 1 := by
  have hpc : _get_important_files c3_contents = ["a.py", "b.py"] := by
    rw [_get_important_files, c3_contents, process_contents, process_contents,
      process_contents]
    decide
  have h1 : (generate_repository_documentation c3_env "o/r" empty_store).1 =
      some (assemble_documentation c3_env c1_repo c3_contents) := rfl
  have hdocfiles : (assemble_documentation c3_env c1_repo c3_contents).files =
      [⟨"a.py", "docA", "t0"⟩, ⟨"b.py", "Error analyzing code: boom", "t0"⟩] := by
    show (_get_important_files c3_contents).filterMap
      (generate_file_documentation c3_env) = _
    rw [hpc]
    rfl
  constructor
  · rw [h1]
    simp [hdocfiles]
  · rw [h1]
    simp [hdocfiles]

/-- C3 (amended): a per-file LLM failure after exhausted retries is
non-fatal and the run still succeeds, but the failed file is NOT omitted:
`analyze_code` catches the re-raised error and returns the string
`"Error analyzing code: <error>"`, so with file `f1` succeeding and file
`f2` exhausting its retries the resulting `files` list contains TWO
entries — `f1`'s documentation and `f2`'s error-string entry.  (A file is
omitted only when its content fetch raises, the path is a directory, or
decoding raises.) -/
theorem per_file_exhaustion_not_omitted (env : GenEnv) (repo_name : String)
    (store : Store) (repo : RepoInfo) (n1 p1 n2 p2 code1 code2 t : String)
    (e : Nat → String)
    (hm : env.model_available = true)
    (hr : env.get_repository = .ok repo)
    (hc : env.root_contents = .ok [Entry.file n1 p1, Entry.file n2 p2])
    (h1 : is_important_file n1 = true)
    (h2 : is_important_file n2 = true)
    (hf1 : env.fetch p1 = .blob (.ok code1))
    (hf2 : env.fetch p2 = .blob (.ok code2))
    (ha1 : env.code_attempts p1 0 = .ok t)
    (ha2 : ∀ i, i ≤ env.max_retries → env.code_attempts p2 i = .error (e i)) :
    ∃ doc, (generate_repository_documentation env repo_name store).1 = some doc ∧
      doc.files = [⟨p1, t, env.now⟩,
        ⟨p2, "Error analyzing code: " ++ e env.max_retries, env.now⟩] := by
  have himp : _get_important_files [Entry.file n1 p1, Entry.file n2 p2] =
      [p1, p2] := by
    rw [_get_important_files, process_contents, process_contents,
      process_contents, h1, h2]
    simp
  have hretry1 : (retry_api_call (env.code_attempts p1) env.max_retries
      env.initial_delay).1 = .ok t := by
    have h := retryGo_ok (env.code_attempts p1) env.initial_delay t 0
      env.max_retries 0 0 (fun j hj => absurd hj (by omega))
      (by simpa using ha1) (by omega)
    rw [retry_api_call, h]
  have hretry2 : (retry_api_call (env.code_attempts p2) env.max_retries
      env.initial_delay).1 = .error (e env.max_retries) := by
    have h := retryGo_error (env.code_attempts p2) env.initial_delay e
      env.max_retries 0 0 (fun j hj => by simpa using ha2 j hj)
    rw [retry_api_call, h]
    simp
  have hana1 : analyze_code env.model_available (env.code_attempts p1)
      env.max_retries env.initial_delay = t := by
    rw [analyze_code, hm]
    simp only [Bool.true_eq_false, if_false]
    rw [hretry1]
  have hana2 : analyze_code env.model_available (env.code_attempts p2)
      env.max_retries env.initial_delay =
      "Error analyzing code: " ++ e env.max_retries := by
    rw [analyze_code, hm]
    simp only [Bool.true_eq_false, if_false]
    rw [hretry2]
  have hgfd1 : generate_file_documentation env p1 = some ⟨p1, t, env.now⟩ := by
    rw [generate_file_documentation, hf1]
    rw [hana1]
  have hgfd2 : generate_file_documentation env p2 =
      some ⟨p2, "Error analyzing code: " ++ e env.max_retries, env.now⟩ := by
    rw [generate_file_documentation, hf2]
    rw [hana2]
  refine ⟨assemble_documentation env repo [Entry.file n1 p1, Entry.file n2 p2],
    ?_, ?_⟩
  · rw [generate_repository_documentation, hr, hc]
  · show (_get_important_files [Entry.file n1 p1, Entry.file n2 p2]).filterMap
      (generate_file_documentation env) = _
    rw [himp]
    simp [List.filterMap_cons, hgfd1, hgfd2]

/-- Witness for C3 (amended) at `c3_env`. -/
theorem per_file_exhaustion_not_omitted_witness :
    ∃ doc, (generate_repository_documentation c3_env "o/r" empty_store).1 =
        some doc ∧
      doc.files = [⟨"a.py", "docA", "t0"⟩,
        ⟨"b.py", "Error analyzing code: " ++ "boom", "t0"⟩] :=
  per_file_exhaustion_not_omitted c3_env "o/r" empty_store c1_repo
    "a.py" "a.py" "b.py" "b.py" "code" "code" "docA" (fun _ => "boom")
    rfl rfl rfl (by decide) (by decide) rfl rfl rfl (fun _ _ => rfl)

/-- C6: persistence happens only after the full aggregate is assembled in
memory: if the run fails (returns `None`), the store is completely
untouched — `get_documentation` afterwards returns, for every repository,
exactly what it returned before — and if the run succeeds, the store
update is exactly one `_save_documentation` of the fully assembled
record. -/
theorem generate_repository_documentation_atomic (env : GenEnv)
    (repo_name : String) (store : Store) :
    ((generate_repository_documentation env repo_name store).1 = none →
      (generate_repository_documentation env repo_name store).2 = store ∧
      ∀ m, get_documentation
          (generate_repository_documentation env repo_name store).2 m =
        get_documentation store m) ∧
    (∀ doc,
      (generate_repository_documentation env repo_name store).1 = some doc →
      (generate_repository_documentation env repo_name store).2 =
        _save_documentation repo_name doc store) := by
  rcases hr : env.get_repository with err | repo
  · have hstep : generate_repository_documentation env repo_name store =
        (none, store) := by
      rw [generate_repository_documentation, hr]
    rw [hstep]
    exact ⟨fun _ => ⟨rfl, fun m => rfl⟩, fun doc h => by simp at h⟩
  · rcases hc : env.root_contents with err | contents
    · have hstep : generate_repository_documentation env repo_name store =
          (none, store) := by
        rw [generate_repository_documentation, hr, hc]
      rw [hstep]
      exact ⟨fun _ => ⟨rfl, fun m => rfl⟩, fun doc h => by simp at h⟩
    · have hstep : generate_repository_documentation env repo_name store =
          (some (assemble_documentation env repo contents),
            _save_documentation repo_name
              (assemble_documentation env repo contents) store) := by
        rw [generate_repository_documentation, hr, hc]
      rw [hstep]
      refine ⟨fun h => by simp at h, fun doc h => ?_⟩
      simp only [Option.some.injEq] at h
      rw [← h]

/-- Witness for C6: a run failing at the repository-fetch step leaves the
store untouched, and the previously saved record for the same repository
is still readable unchanged. -/
theorem generate_repository_documentation_atomic_witness :
    (generate_repository_documentation c6_env "x/y" c6_prev_store).2 =
      c6_prev_store ∧
    get_documentation
      (generate_repository_documentation c6_env "x/y" c6_prev_store).2 "x/y" =
      some demo_doc := by
  have h := (generate_repository_documentation_atomic c6_env "x/y"
    c6_prev_store).1 rfl
  refine ⟨h.1, ?_⟩
  rw [h.2 "x/y"]
  simp [c6_prev_store, get_documentation, _save_documentation]

/-- C8 counterexample: a successful LLM output `"A --> B"` has no
recognizable "flow" keyword, yet `generate_mermaid_diagram` does NOT
substitute the canned placeholder — it repairs the output by prepending
`flowchart LR` and returns the repaired diagram. -/
theorem mermaid_missing_flow_keyword_not_placeholder :
    generate_mermaid_diagram true (fun _ => Except.ok "A --> B") 3 1 =
      "```mermaid\n    flowchart LR\n    A --> B\n```" ∧
    strContains (lower "A --> B") "flow" = false ∧
    generate_mermaid_diagram true (fun _ => Except.ok "A --> B") 3 1 ≠
      failed_diagram ∧
    generate_mermaid_diagram true (fun _ => Except.ok "A --> B") 3 1 ≠
      unavailable_diagram := by
  refine ⟨rfl, by decide, by decide, by decide⟩

/-- C8 (amended): `generate_mermaid_diagram` never propagates a failure:
without a model it returns the unavailable placeholder; when the LLM call
exhausts its retries it returns the failure placeholder; on a successful
response it returns either the failure placeholder (exactly when the
cleaned output has no `-->` edge marker) or a ` ```mermaid `-fenced
diagram containing `-->`.  A missing "flow" keyword is repaired by
prepending `flowchart LR`, not replaced by the placeholder (see the
counterexample).  The requesting run's success is unaffected by the
diagram attempts' outcomes. -/
theorem generate_mermaid_diagram_never_fails
    (attempts : Nat → Except String String) (max_retries initial_delay : Nat) :
    (generate_mermaid_diagram false attempts max_retries initial_delay =
      unavailable_diagram) ∧
    (∀ e, (retry_api_call attempts max_retries initial_delay).1 = .error e →
      generate_mermaid_diagram true attempts max_retries initial_delay =
        failed_diagram) ∧
    (∀ t, (retry_api_call attempts max_retries initial_delay).1 = .ok t →
      (strContains (clean_diagram t) "-->" = false →
        generate_mermaid_diagram true attempts max_retries initial_delay =
          failed_diagram) ∧
      (strContains (clean_diagram t) "-->" = true →
        generate_mermaid_diagram true attempts max_retries initial_delay =
          "```mermaid\n" ++ clean_diagram t ++ "\n```")) ∧
    (∀ (env : GenEnv) (analysis : Except String Unit)
        (att₁ att₂ : Nat → Except String String) (n : String) (store : Store),
      (generate_documentation env analysis att₁ n store).1.isSome =
        (generate_documentation env analysis att₂ n store).1.isSome) := by
  refine ⟨rfl, ?_, ?_, ?_⟩
  · intro e h
    rw [generate_mermaid_diagram]
    simp only [Bool.true_eq_false, if_false]
    rw [h]
  · intro t h
    constructor
    · intro hD
      rw [generate_mermaid_diagram]
      simp only [Bool.true_eq_false, if_false]
      rw [h]
      show (if strContains (clean_diagram t) "-->" = false then failed_diagram
        else "```mermaid\n" ++ clean_diagram t ++ "\n```") = failed_diagram
      rw [if_pos hD]
    · intro hD
      rw [generate_mermaid_diagram]
      simp only [Bool.true_eq_false, if_false]
      rw [h]
      show (if strContains (clean_diagram t) "-->" = false then failed_diagram
        else "```mermaid\n" ++ clean_diagram t ++ "\n```") =
        "```mermaid\n" ++ clean_diagram t ++ "\n```"
      rw [if_neg (by simp [hD])]
  · intro env analysis att₁ att₂ n store
    rcases analysis with err | u
    · rfl
    · rw [generate_documentation, generate_documentation]
      rcases hgen : generate_repository_documentation env n store with ⟨od, store'⟩
      rcases od with _ | doc
      · rfl
      · rfl

/-- Witness for C8 (amended) at concrete inputs: the unavailable and
failure placeholders at an always-failing call, the fenced success path at
`"A --> B"`, and the diagram-independence of a concrete run's success. -/
theorem generate_mermaid_diagram_never_fails_witness :
    generate_mermaid_diagram false (fun _ => Except.error "x") 3 1 =
      unavailable_diagram ∧
    generate_mermaid_diagram true (fun _ => Except.error "x") 3 1 =
      failed_diagram ∧
    generate_mermaid_diagram true (fun _ => Except.ok "A --> B") 3 1 =
      "```mermaid\n" ++ clean_diagram "A --> B" ++ "\n```" ∧
    (generate_documentation c1_env (Except.ok ()) (fun _ => Except.error "x")
        "o/r" empty_store).1.isSome =
      (generate_documentation c1_env (Except.ok ()) (fun _ => Except.ok "flowchart LR\nA --> B")
        "o/r" empty_store).1.isSome := by
  refine ⟨(generate_mermaid_diagram_never_fails (fun _ => Except.error "x") 3 1).1,
    (generate_mermaid_diagram_never_fails (fun _ => Except.error "x") 3 1).2.1
      "x" rfl,
    ((generate_mermaid_diagram_never_fails (fun _ => Except.ok "A --> B") 3 1).2.2.1
      "A --> B" rfl).2 (by decide),
    (generate_mermaid_diagram_never_fails (fun _ => Except.error "x") 3 1).2.2.2
      c1_env (Except.ok ()) (fun _ => Except.error "x")
      (fun _ => Except.ok "flowchart LR\nA --> B") "o/r" empty_store⟩

theorem infix_str_join (sep : String) : ∀ (l : List String) (s : String),
    s ∈ l → s.data <:+: (str_join sep l).data
  | [], s, h => absurd h (List.not_mem_nil s)
  | [a], s, h => by
    rcases List.mem_singleton.1 h with rfl
    rw [str_join]
  | a :: b :: rest, s, h => by
    rcases List.mem_cons.1 h with rfl | h
    · refine ⟨[], sep.data ++ (str_join sep (b :: rest)).data, ?_⟩
      rw [List.nil_append, str_join, String.data_append, String.data_append,
        List.append_assoc]
    · obtain ⟨u, v, huv⟩ := infix_str_join sep (b :: rest) s h
      refine ⟨a.data ++ sep.data ++ u, v, ?_⟩
      rw [str_join, String.data_append, String.data_append, ← huv]
      simp [List.append_assoc]

/-- Every value `generate_mermaid_diagram` can return starts with the
eleven characters of `"```mermaid\n"`. -/
theorem generate_mermaid_diagram_fenced (model_available : Bool)
    (attempts : Nat → Except String String) (max_retries initial_delay : Nat) :
    ∃ rest,
      (generate_mermaid_diagram model_available attempts max_retries
        initial_delay).data = "```mermaid\n".data ++ rest := by
  cases model_available with
  | false =>
    exact ⟨("    flowchart LR\n        E[Error] -->|AI Service Not Available| M[Check API Key]\n    ```").data,
      rfl⟩
  | true =>
    rcases hres : (retry_api_call attempts max_retries initial_delay).1 with e | t
    · refine ⟨("    flowchart LR\n        E[Error] -->|Generation failed| M[Please try again]\n    ```").data, ?_⟩
      rw [generate_mermaid_diagram]
      simp only [Bool.true_eq_false, if_false]
      rw [hres]
      rfl
    · rw [generate_mermaid_diagram]
      simp only [Bool.true_eq_false, if_false]
      rw [hres]
      show ∃ rest, (if strContains (clean_diagram t) "-->" = false
        then failed_diagram
        else "```mermaid\n" ++ clean_diagram t ++ "\n```").data =
          "```mermaid\n".data ++ rest
      by_cases hD : strContains (clean_diagram t) "-->" = false
      · rw [if_pos hD]
        exact ⟨("    flowchart LR\n        E[Error] -->|Generation failed| M[Please try again]\n    ```").data,
          by decide⟩
      · rw [if_neg hD]
        refine ⟨(clean_diagram t).data ++ "\n```".data, ?_⟩
        rw [String.data_append, String.data_append, List.append_assoc]

/-- C10: a record whose `diagrams.flow` field holds any value returned by
`generate_mermaid_diagram` (which is already wrapped in a ` ```mermaid `
fence) is rendered by `_generate_markdown` with a second ` ```mermaid `
fence around it, so the rendered Markdown contains the line
"```mermaid" immediately followed by another "```mermaid" — nested fences
rather than one fence around bare diagram notation. -/
theorem markdown_nested_mermaid_fences (model_available : Bool)
    (attempts : Nat → Except String String) (max_retries initial_delay : Nat)
    (documentation : RepoDocumentation)
    (h : documentation.diagrams = some (generate_mermaid_diagram
      model_available attempts max_retries initial_delay)) :
    strContains (_generate_markdown documentation) "```mermaid\n```mermaid\n" =
      true := by
  obtain ⟨rest, hrest⟩ := generate_mermaid_diagram_fenced model_available
    attempts max_retries initial_delay
  have hmem : ("```mermaid\n" ++ generate_mermaid_diagram model_available
      attempts max_retries initial_delay ++ "\n```") ∈
      markdown_lines documentation := by
    rw [markdown_lines, h]
    simp
  have helem := infix_str_join "\n" (markdown_lines documentation) _ hmem
  have hpre : ("```mermaid\n```mermaid\n").data <+:
      ("```mermaid\n" ++ generate_mermaid_diagram model_available attempts
        max_retries initial_delay ++ "\n```").data := by
    rw [String.data_append, String.data_append, hrest]
    refine ⟨rest ++ "\n```".data, ?_⟩
    have hpat : ("```mermaid\n```mermaid\n").data =
        "```mermaid\n".data ++ "```mermaid\n".data := by decide
    rw [hpat]
    simp [List.append_assoc]
  have : ("```mermaid\n```mermaid\n").data <:+:
      (_generate_markdown documentation).data :=
    List.IsInfix.trans hpre.isInfix helem
  exact decide_eq_true this

/-- Witness for C10 at a concrete record carrying a concrete successful
diagram. -/
theorem markdown_nested_mermaid_fences_witness :
    strContains (_generate_markdown c10_doc) "```mermaid\n```mermaid\n" =
      true :=
  markdown_nested_mermaid_fences true (fun _ => Except.ok "A --> B") 3 1
    c10_doc rfl

end Docster
